import Mathlib

set_option linter.dupNamespace false
set_option linter.unnecessarySeqFocus false

/-!
Verification of the redrip CLI's configuration-resolution and diff logic
against its specification.

The Go source is shallowly embedded:
  * `internal/file` helpers (`Exists`, `IsFile`, `IsDirectory`) become
    queries on an explicit filesystem value `FS`;
  * `internal/diff.CompareQueryWithLocal` becomes a pure function from the
    filesystem, the query id, the optional remote query and the local path
    to the pair (Result, optional error message), mirroring Go's
    `(Result, error)` return;
  * the `diff all` command's per-entry loop becomes a fold of a step
    function over the directory listing;
  * `internal/redash.LoadConfig`'s line scanner becomes a fold of a
    per-line function over the list of lines;
  * `GetProfileConfig`, `ValidateProfileConfig` and the directory-fallback
    tail of `GetProfileSQLDir` become pure functions, with the
    `REDRIP_PROFILE` environment variable passed explicitly.
Go's `map[string]ProfileConfig` is modelled as an association list with
first-occurrence lookup and replace-or-append update; Go map iteration
order never matters to the embedded code. Field names keep the Go source's
casing.
-/

namespace Redrip

/-! ## Filesystem model (internal/file) -/

/-- A filesystem node: a regular file with content (and a readability flag,
so that `os.ReadFile` failures on an existing file are representable), or a
directory. -/
inductive FSNode where
  | file (content : String) (readable : Bool)
  | dir
deriving DecidableEq, Repr

/-- A filesystem: a finite map from paths to nodes, as an association list. -/
structure FS where
  entries : List (String × FSNode)
deriving DecidableEq, Repr

/-- `os.Stat`: look the path up. -/
def FS.stat (fs : FS) (p : String) : Option FSNode :=
  (fs.entries.find? (fun e => e.1 == p)).map (fun e => e.2)

/-- `file.Exists`: `os.Stat` succeeds. -/
def fileExists (fs : FS) (p : String) : Bool :=
  (fs.stat p).isSome

/-- `file.IsFile`: stat succeeds and the node is not a directory. -/
def isFile (fs : FS) (p : String) : Bool :=
  match fs.stat p with
  | some (.file _ _) => true
  | _ => false

/-- `file.IsDirectory`: stat succeeds and the node is a directory. -/
def isDirectory (fs : FS) (p : String) : Bool :=
  match fs.stat p with
  | some .dir => true
  | _ => false

/-- `os.ReadFile`: content of a readable regular file, `none` on any error. -/
def readFile (fs : FS) (p : String) : Option String :=
  match fs.stat p with
  | some (.file c true) => some c
  | _ => none

/-! ## Whitespace trimming (strings.TrimSpace) -/

/-- Go's `unicode.IsSpace`: the White_Space code points. -/
def goIsSpace (c : Char) : Bool :=
  c = ' ' || c = '\t' || c = '\n' || c = '\x0b' || c = '\x0c' || c = '\r' ||
  c = '\x85' || c = '\xa0' || c = ' ' ||
  (' ' ≤ c && c ≤ ' ') ||
  c = ' ' || c = ' ' || c = ' ' || c = ' ' || c = '　'

/-- `strings.TrimSpace`: drop leading and trailing whitespace. -/
def goTrim (s : String) : String :=
  String.mk (((s.toList.dropWhile goIsSpace).reverse.dropWhile goIsSpace).reverse)

/-- Character-list test that the second list leads the first. -/
def leadsWith : List Char → List Char → Bool
  | _, [] => true
  | [], _ :: _ => false
  | c :: cs, d :: ds => c == d && leadsWith cs ds

/-- `strings.HasPrefix` (kernel-reducible form over character lists). -/
def strStartsWith (s other : String) : Bool :=
  leadsWith s.toList other.toList

/-- `strings.HasSuffix` (kernel-reducible form over character lists). -/
def strEndsWith (s other : String) : Bool :=
  leadsWith s.toList.reverse other.toList.reverse

/-- Drop the first `n` characters (Go slicing `s[n:]` on ASCII input). -/
def strDrop (s : String) (n : Nat) : String :=
  String.mk (s.toList.drop n)

/-- Drop the last `n` characters (Go slicing `s[:len(s)-n]` on ASCII input). -/
def strDropRight (s : String) (n : Nat) : String :=
  String.mk ((s.toList.reverse.drop n).reverse)

/-- Character count of a string. -/
def strLength (s : String) : Nat :=
  s.toList.length

/-! ## Remote query and diff result (internal/redash, internal/diff) -/


/-- `redash.Query`: id, name and SQL text of a remote query. -/
structure Query where
  ID : Int
  Name : String
  Query : String
deriving DecidableEq, Repr

/-- `diff.Result`: outcome of comparing one local file with one remote
query. Fields keep Go's zero values as defaults. -/
structure Result where
  QueryID : Int := 0
  QueryName : String := ""
  Status : String := ""
  ErrorMessage : String := ""
  LocalPath : String := ""
  Differences : String := ""
deriving DecidableEq, Repr

/-- `diff.Summary`: aggregate of a bulk diff run. -/
structure Summary where
  Profile : String := ""
  SQLDirectory : String := ""
  Matches : Nat := 0
  Differences : Nat := 0
  MissingInRedash : Nat := 0
  Results : List Result := []
deriving DecidableEq, Repr

/-- Abstraction of the external go-diff library's
`DiffMain` + `DiffPrettyText` rendering. The library lives outside this
repository; the classification logic only needs that some text is produced
from the two trimmed strings, never its shape. -/
def diffPrettyText (localSQL redashSQL : String) : String :=
  "-[" ++ localSQL ++ "]+[" ++ redashSQL ++ "]"

/-- `diff.CompareQueryWithLocal` (internal/diff/diff.go): compare a local
SQL file with an optional remote query. Returns the result together with
the optional error message, mirroring Go's `(Result, error)` pair; error
texts stand in for Go's formatted `error` values. -/
def CompareQueryWithLocal (fs : FS) (queryID : Int) (redashQuery : Option Query)
    (localPath : String) : Result × Option String :=
  let result : Result := { QueryID := queryID, LocalPath := localPath }
  if !(fileExists fs localPath) || !(isFile fs localPath) then
    (result, some ("local SQL file does not exist: " ++ localPath))
  else
    let result := match redashQuery with
      | some q => { result with QueryName := q.Name }
      | none => result
    match readFile fs localPath with
    | none => (result, some ("failed to read local file: " ++ localPath))
    | some localContent =>
      match redashQuery with
      | none => ({ result with Status := "MISSING_IN_REDASH" }, none)
      | some q =>
        let localSQL := goTrim localContent
        let redashSQL := goTrim q.Query
        if localSQL == redashSQL then
          ({ result with Status := "MATCH" }, none)
        else
          ({ result with
              Status := "DIFFERENT"
              Differences := diffPrettyText localSQL redashSQL }, none)

/-! ## Configuration (internal/redash/client.go) -/

/-- `redash.ProfileConfig`: the three per-profile settings. Defaults are
Go's zero values. -/
structure ProfileConfig where
  RedashURL : String := ""
  APIKey : String := ""
  SQLDir : String := ""
deriving DecidableEq, Repr

/-- `redash.Config`: Go's `map[string]ProfileConfig`, modelled as an
association list with unique keys. -/
structure Config where
  Profiles : List (String × ProfileConfig)
deriving DecidableEq, Repr

/-- Map read `m[k]` with presence flag: first matching entry. -/
def mapLookup (m : List (String × ProfileConfig)) (k : String) :
    Option ProfileConfig :=
  (m.find? (fun e => e.1 == k)).map (fun e => e.2)

/-- Map read `m[k]` defaulting to the zero `ProfileConfig`, as a Go map
index does. -/
def mapLookupD (m : List (String × ProfileConfig)) (k : String) : ProfileConfig :=
  (mapLookup m k).getD {}

/-- Map write `m[k] = v`: replace the entry if present, append otherwise. -/
def mapUpdate : List (String × ProfileConfig) → String → ProfileConfig →
    List (String × ProfileConfig)
  | [], k, v => [(k, v)]
  | (k', v') :: rest, k, v =>
    if k' == k then (k, v) :: rest else (k', v') :: mapUpdate rest k v

/-- The scanner's comment/blank test:
`strings.HasPrefix(strings.TrimSpace(line), "#") || strings.TrimSpace(line) == ""`. -/
def isCommentOrBlank (line : String) : Bool :=
  strStartsWith (goTrim line) "#" || goTrim line == ""

/-- The scanner's section test:
`strings.HasPrefix(line, "[") && strings.HasSuffix(line, "]")`. -/
def isSectionLine (line : String) : Bool :=
  strStartsWith line "[" && strEndsWith line "]"

/-- The section-header name: trim the text between the brackets
(`line[1 : len(line)-1]`); accept `profile <name>` (yielding the trimmed
name) or `default`; any other header is invalid (`none`), which the
scanner logs and ignores. -/
def sectionName (line : String) : Option String :=
  let profileName := goTrim (strDropRight (strDrop line 1) 1)
  if strStartsWith profileName "profile " then some (goTrim (strDrop profileName 8))
  else if profileName == "default" then some profileName
  else none

/-- Split a character list at the first `'='`, if any. -/
def splitEq : List Char → Option (List Char × List Char)
  | [] => none
  | c :: rest =>
    if c == '=' then some ([], rest)
    else (splitEq rest).map (fun p => (c :: p.1, p.2))

/-- `strings.SplitN(line, "=", 2)`: `none` when the line has no `=` (Go
returns one part), otherwise the text before the first `=` and everything
after it. -/
def splitN2 (line : String) : Option (String × String) :=
  (splitEq line.toList).map (fun p => (String.mk p.1, String.mk p.2))

/-- The scanner's `switch key` assignment: set the matching field to the
trimmed value, leave the config unchanged for unrecognized keys. -/
def assignKey (profileConfig : ProfileConfig) (key value : String) : ProfileConfig :=
  if key == "redash_url" then { profileConfig with RedashURL := value }
  else if key == "api_key" then { profileConfig with APIKey := value }
  else if key == "sql_dir" then { profileConfig with SQLDir := value }
  else profileConfig

/-- The scanner's loop state: the current section name and the profiles
read so far. -/
structure ParseState where
  currentProfile : String
  Profiles : List (String × ProfileConfig)
deriving DecidableEq, Repr

/-- One iteration of `LoadConfig`'s scanner loop
(internal/redash/client.go): skip comments and blanks; on a bracketed line
switch and initialize the section when the header is valid, else ignore
the line; otherwise split at the first `=` (no `=` means skip) and write
the trimmed value through `assignKey` back into the current profile. -/
def processLine (st : ParseState) (line : String) : ParseState :=
  if isCommentOrBlank line then st
  else if isSectionLine line then
    match sectionName line with
    | none => st
    | some pname =>
      { currentProfile := pname
        Profiles := if (mapLookup st.Profiles pname).isSome then st.Profiles
                    else mapUpdate st.Profiles pname {} }
  else
    match splitN2 line with
    | none => st
    | some (rawKey, rawValue) =>
      let key := goTrim rawKey
      let value := goTrim rawValue
      let profileConfig := mapLookupD st.Profiles st.currentProfile
      { st with Profiles :=
          mapUpdate st.Profiles st.currentProfile (assignKey profileConfig key value) }

/-- `redash.LoadConfig` on the file's lines (the `EnsureConfigFile` and
`os.Open` I/O around the scanner cannot fail on content and is outside
this model): fold the scanner over the lines starting from section
`default` with no profiles, then insert an empty `default` profile if the
file never produced one. -/
def LoadConfig (lines : List String) : Config :=
  let st := lines.foldl processLine { currentProfile := "default", Profiles := [] }
  { Profiles := if (mapLookup st.Profiles "default").isSome then st.Profiles
                else mapUpdate st.Profiles "default" {} }

/-- `redash.GetProfileConfig`, with the `REDRIP_PROFILE` environment
variable passed explicitly (`""` when unset). Returns the chosen config
together with the resolved profile name the Go code stores in
`CurrentProfile`. The Go function cannot return an error. -/
def GetProfileConfig (env : String) (config : Config) (profileName : String) :
    ProfileConfig × String :=
  let profileName := if profileName == "" then env else profileName
  let profileName := if profileName == "" then "default" else profileName
  match mapLookup config.Profiles profileName with
  | some profileConfig => (profileConfig, profileName)
  | none => (mapLookupD config.Profiles "default", "default")

/-- `redash.ValidateProfileConfig`: `some` error text when a required
field is missing, `none` on success. -/
def ValidateProfileConfig (profileConfig : ProfileConfig) : Option String :=
  if profileConfig.RedashURL == "" || profileConfig.APIKey == "" then
    let missingFields :=
      (if profileConfig.RedashURL == "" then ["redash_url"] else []) ++
      (if profileConfig.APIKey == "" then ["api_key"] else [])
    some ("required configuration values not found: " ++
      String.intercalate ", " missingFields)
  else
    none

/-- The directory-fallback tail of `redash.GetProfileSQLDir` (the part
after the config has been loaded and the profile resolved): empty or
non-directory `SQLDir` silently falls back to `"."`; the tail never
returns an error, so the `error` component is kept to state that. -/
def GetProfileSQLDir (fs : FS) (profileConfig : ProfileConfig) :
    String × Option String :=
  if profileConfig.SQLDir == "" then (".", none)
  else if !(fileExists fs profileConfig.SQLDir) ||
      !(isDirectory fs profileConfig.SQLDir) then (".", none)
  else (profileConfig.SQLDir, none)

/-! ## The `diff all` command loop (internal/commands, diffAllCmd) -/

/-- One entry of `os.ReadDir`'s listing: its name and whether it is a
directory. -/
structure DirEntry where
  name : String
  isDir : Bool
deriving DecidableEq, Repr

/-- `strings.TrimSuffix`: drop the suffix when present. -/
def trimSuffixStr (s suf : String) : String :=
  if strEndsWith s suf then strDropRight s (strLength suf) else s

/-- Decimal digit-list value: `none` on an empty list or any non-digit. -/
def digitsVal : List Char → Option Nat
  | [] => none
  | cs =>
    if cs.all (fun c => c.isDigit) then
      some (cs.foldl (fun a c => a * 10 + (c.toNat - 48)) 0)
    else none

/-- Go's `strconv.Atoi`: an optional sign followed by at least one decimal
digit; anything else is an error. (64-bit overflow is not modelled; the
ids in file names are small.) -/
def atoi (s : String) : Option Int :=
  match s.toList with
  | '+' :: rest => (digitsVal rest).map (fun n => (n : Int))
  | '-' :: rest => (digitsVal rest).map (fun n => -(n : Int))
  | cs => (digitsVal cs).map (fun n => (n : Int))

/-- Lookup in the command's `map[int]Query` (`queryMap[id]` with presence
flag). -/
def qmapLookup (m : List (Int × Query)) (id : Int) : Option Query :=
  (m.find? (fun e => e.1 == id)).map (fun e => e.2)

/-- Map write `m[id] = q` for the query map: replace or append. -/
def qmapUpdate : List (Int × Query) → Int → Query → List (Int × Query)
  | [], id, q => [(id, q)]
  | (id', q') :: rest, id, q =>
    if id' == id then (id, q) :: rest else (id', q') :: qmapUpdate rest id q

/-- The command's `queryMap` construction from the listed queries. -/
def buildQueryMap (queries : List Query) : List (Int × Query) :=
  queries.foldl (fun m q => qmapUpdate m q.ID q) []

/-- `filepath.Join(sqlDir, entry.Name())` for a clean directory path and a
plain file name. -/
def joinPath (dir name : String) : String :=
  dir ++ "/" ++ name

/-- The loop's implicit filter: a non-directory entry whose name is
`<integer>.sql` (the part before the `.sql` suffix parses with `Atoi`). -/
def validSqlEntry (entry : DirEntry) : Bool :=
  !entry.isDir && strEndsWith entry.name ".sql" &&
    (atoi (trimSuffixStr entry.name ".sql")).isSome

/-- One iteration of `diffAllCmd`'s per-entry loop: skip directories,
non-`.sql` names and names whose stem is not an integer; otherwise compare
the local file with the mapped remote query, patch the result to `ERROR`
carrying the error text when the comparison failed, bump the counter
matching the result's status (`ERROR` bumps none), and append the
result. -/
def diffAllStep (fs : FS) (queryMap : List (Int × Query)) (sqlDir : String)
    (summary : Summary) (entry : DirEntry) : Summary :=
  if entry.isDir || !strEndsWith entry.name ".sql" then summary
  else
    match atoi (trimSuffixStr entry.name ".sql") with
    | none => summary
    | some id =>
      let localPath := joinPath sqlDir entry.name
      let queryPtr := qmapLookup queryMap id
      let cmp := CompareQueryWithLocal fs id queryPtr localPath
      let result := match cmp.2 with
        | some msg => { cmp.1 with Status := "ERROR", ErrorMessage := msg }
        | none => cmp.1
      let summary :=
        if result.Status == "MATCH" then
          { summary with Matches := summary.Matches + 1 }
        else if result.Status == "DIFFERENT" then
          { summary with Differences := summary.Differences + 1 }
        else if result.Status == "MISSING_IN_REDASH" then
          { summary with MissingInRedash := summary.MissingInRedash + 1 }
        else summary
      { summary with Results := summary.Results ++ [result] }

/-- `diffAllCmd`'s whole accumulation: fold the per-entry step over the
directory listing starting from the empty summary. -/
def diffAll (fs : FS) (queryMap : List (Int × Query)) (profile sqlDir : String)
    (entries : List DirEntry) : Summary :=
  entries.foldl (diffAllStep fs queryMap sqlDir)
    { Profile := profile, SQLDirectory := sqlDir, Results := [] }

/-- Number of results carrying a given status. -/
def countStatus (rs : List Result) (st : String) : Nat :=
  rs.countP (fun r => r.Status == st)

/-- The path names a readable regular file; exactly the condition under
which `CompareQueryWithLocal` does not fail. -/
def readableFileAt (fs : FS) (p : String) : Bool :=
  match fs.stat p with
  | some (.file _ true) => true
  | _ => false

/-- The `DiffResult` the loop appends for a valid entry: the comparison's
result, patched to `ERROR` with the error text when the comparison
failed. -/
def entryResult (fs : FS) (queryMap : List (Int × Query)) (sqlDir : String)
    (entry : DirEntry) : Result :=
  let id := (atoi (trimSuffixStr entry.name ".sql")).getD 0
  let localPath := joinPath sqlDir entry.name
  let cmp := CompareQueryWithLocal fs id (qmapLookup queryMap id) localPath
  match cmp.2 with
  | some msg => { cmp.1 with Status := "ERROR", ErrorMessage := msg }
  | none => cmp.1

end Redrip

namespace Redrip

/-! ## Map lemmas -/

theorem mapLookup_mapUpdate_self (m : List (String × ProfileConfig))
    (k : String) (v : ProfileConfig) :
    mapLookup (mapUpdate m k v) k = some v := by
  induction m with
  | nil => simp [mapUpdate, mapLookup, List.find?]
  | cons hd tl ih =>
    obtain ⟨k', v'⟩ := hd
    by_cases h : k' = k
    · simp [mapUpdate, h, mapLookup, List.find?]
    · have hb : (k' == k) = false := by simp [h]
      simp only [mapUpdate, hb, Bool.false_eq_true, if_false]
      simpa [mapLookup, List.find?, hb] using ih

theorem mapLookup_mapUpdate_ne (m : List (String × ProfileConfig))
    (k k' : String) (v : ProfileConfig) (h : k' ≠ k) :
    mapLookup (mapUpdate m k v) k' = mapLookup m k' := by
  have hb : (k == k') = false := by simp [Ne.symm h]
  induction m with
  | nil => simp [mapUpdate, mapLookup, List.find?, hb]
  | cons hd tl ih =>
    obtain ⟨k'', v''⟩ := hd
    by_cases h2 : k'' = k
    · subst h2
      simp [mapUpdate, mapLookup, List.find?, hb]
    · have hb2 : (k'' == k) = false := by simp [h2]
      simp only [mapUpdate, hb2, Bool.false_eq_true, if_false]
      by_cases h3 : k'' = k'
      · simp [mapLookup, List.find?, h3]
      · have hb3 : (k'' == k') = false := by simp [h3]
        simpa [mapLookup, List.find?, hb3] using ih

theorem mapLookupD_mapUpdate_same (m : List (String × ProfileConfig))
    (k n : String) :
    mapLookupD (mapUpdate m k (mapLookupD m k)) n = mapLookupD m n := by
  by_cases h : n = k
  · subst h
    simp [mapLookupD, mapLookup_mapUpdate_self]
  · simp [mapLookupD, mapLookup_mapUpdate_ne m k n _ h]

/-! ## C1, C2: classification of a single comparison -/

/-- C1: For every local file content `L` and every present remote query with
text `R`, `CompareQueryWithLocal` returns status `MATCH` if and only if `L`
and `R` are equal after trimming leading/trailing whitespace; in particular
leading/trailing whitespace differences alone never prevent a `MATCH`.
The filesystem holds the local file at `p` with content `L`. -/
theorem compare_match_iff_trim_eq (L R nm p : String) (qid : Int) :
    ((CompareQueryWithLocal ⟨[(p, .file L true)]⟩ qid
        (some ⟨qid, nm, R⟩) p).1.Status = "MATCH") ↔ goTrim L = goTrim R := by
  have hstat : FS.stat ⟨[(p, .file L true)]⟩ p = some (.file L true) := by
    simp [FS.stat, List.find?]
  simp only [CompareQueryWithLocal, fileExists, isFile, readFile, hstat]
  by_cases h : goTrim L = goTrim R
  · simp [h]
  · simp [h]

/-- C2 counterexample: the claim states that for EVERY local path, compare
with the remote query absent yields `MISSING_IN_REDASH` and no error. On an
empty filesystem (the local file `7.sql` does not exist) the call instead
returns an error and an empty status. -/
theorem compare_absent_on_missing_file_errors :
    (CompareQueryWithLocal ⟨[]⟩ 7 none "7.sql").1.Status ≠ "MISSING_IN_REDASH" ∧
    (CompareQueryWithLocal ⟨[]⟩ 7 none "7.sql").2 =
      some "local SQL file does not exist: 7.sql" := by
  constructor
  · decide
  · rfl

/-- C2 amended: for every local path that denotes an existing readable
regular file, compare with the remote query absent yields status
`MISSING_IN_REDASH` and no error (so never `ERROR` or `DIFFERENT`). -/
theorem compare_absent_on_existing_file_missing_in_redash (c p : String) (qid : Int) :
    (CompareQueryWithLocal ⟨[(p, .file c true)]⟩ qid none p).1.Status =
      "MISSING_IN_REDASH" ∧
    (CompareQueryWithLocal ⟨[(p, .file c true)]⟩ qid none p).2 = none := by
  have hstat : FS.stat ⟨[(p, .file c true)]⟩ p = some (.file c true) := by
    simp [FS.stat, List.find?]
  simp [CompareQueryWithLocal, fileExists, isFile, readFile, hstat]

/-! ## C5, C6: the config parser -/

/-- C5: for every input config file content, parsing succeeds (the scanner
never fails on content) and the returned profile mapping contains a
profile named `default`, inserted empty when the file produced none. -/
theorem loadConfig_default_profile_present (lines : List String) :
    (mapLookup (LoadConfig lines).Profiles "default").isSome = true := by
  unfold LoadConfig
  dsimp only
  split
  · assumption
  · simp [mapLookup_mapUpdate_self]

/-- C6 counterexample: the claim states that lines without exactly one `=`
are skipped. The line `redash_url = a=b` contains two `=` yet is processed:
it assigns `a=b` (the trimmed text after the FIRST `=`) to the default
profile's `redash_url`. -/
theorem loadConfig_two_equals_line_not_skipped :
    ("redash_url = a=b".toList.count '=' = 2) ∧
    mapLookupD (LoadConfig ["redash_url = a=b"]).Profiles "default" =
      { RedashURL := "a=b" } := by
  constructor
  · decide
  · decide

/-- C6 amended: per-line behavior of the parser, which never fails on
content. A bracketed header other than `[default]` or `[profile <name>]`
leaves the state (current section and profiles) unchanged; a line with at
least one `=` (not a comment/blank or bracketed line) splits at the FIRST
`=` and assigns the trimmed value to the current section's `redash_url`,
`api_key` or `sql_dir` field; a key other than those three changes no
profile's observable config and not the current section; a line with no
`=` at all is skipped. (The original claim's "lines without exactly one
`=` are skipped" is amended to "lines without any `=` are skipped".) -/
theorem processLine_line_shapes (st : ParseState) (line : String) :
    (isCommentOrBlank line = false → isSectionLine line = true →
      sectionName line = none → processLine st line = st) ∧
    (∀ rawKey rawValue, isCommentOrBlank line = false → isSectionLine line = false →
      splitN2 line = some (rawKey, rawValue) →
      (goTrim rawKey = "redash_url" →
        processLine st line = ⟨st.currentProfile,
          mapUpdate st.Profiles st.currentProfile
            { mapLookupD st.Profiles st.currentProfile with RedashURL := goTrim rawValue }⟩) ∧
      (goTrim rawKey = "api_key" →
        processLine st line = ⟨st.currentProfile,
          mapUpdate st.Profiles st.currentProfile
            { mapLookupD st.Profiles st.currentProfile with APIKey := goTrim rawValue }⟩) ∧
      (goTrim rawKey = "sql_dir" →
        processLine st line = ⟨st.currentProfile,
          mapUpdate st.Profiles st.currentProfile
            { mapLookupD st.Profiles st.currentProfile with SQLDir := goTrim rawValue }⟩) ∧
      (goTrim rawKey ≠ "redash_url" → goTrim rawKey ≠ "api_key" →
        goTrim rawKey ≠ "sql_dir" →
        (processLine st line).currentProfile = st.currentProfile ∧
        ∀ n, mapLookupD (processLine st line).Profiles n =
          mapLookupD st.Profiles n)) ∧
    (isCommentOrBlank line = false → isSectionLine line = false →
      splitN2 line = none → processLine st line = st) := by
  refine ⟨?_, ?_, ?_⟩
  · intro h1 h2 h3
    simp [processLine, h1, h2, h3]
  · intro rawKey rawValue h1 h2 h3
    refine ⟨?_, ?_, ?_, ?_⟩
    · intro hk
      simp [processLine, h1, h2, h3, assignKey, hk]
    · intro hk
      have hk1 : (goTrim rawKey == "redash_url") = false := by simp [hk]
      simp [processLine, h1, h2, h3, assignKey, hk, hk1]
    · intro hk
      have hk1 : (goTrim rawKey == "redash_url") = false := by simp [hk]
      have hk2 : (goTrim rawKey == "api_key") = false := by simp [hk]
      simp [processLine, h1, h2, h3, assignKey, hk, hk1, hk2]
    · intro hk1 hk2 hk3
      have hb1 : (goTrim rawKey == "redash_url") = false := by simp [hk1]
      have hb2 : (goTrim rawKey == "api_key") = false := by simp [hk2]
      have hb3 : (goTrim rawKey == "sql_dir") = false := by simp [hk3]
      constructor
      · simp [processLine, h1, h2, h3]
      · intro n
        simp only [processLine, h1, h2, h3, Bool.false_eq_true, if_false,
          if_true]
        simp only [assignKey, hb1, hb2, hb3, Bool.false_eq_true, if_false]
        exact mapLookupD_mapUpdate_same st.Profiles st.currentProfile n
  · intro h1 h2 h3
    simp [processLine, h1, h2, h3]

/-- Witness for the header conjunct of the per-line theorem: the invalid
header `[bogus]` leaves the parser state unchanged. -/
theorem processLine_line_shapes_witness :
    processLine ⟨"default", []⟩ "[bogus]" = ⟨"default", []⟩ :=
  (processLine_line_shapes ⟨"default", []⟩ "[bogus]").1 (by decide) (by decide)
    (by decide)

/-! ## C7: profile resolution precedence -/

/-- C7: `GetProfileConfig` resolves the active profile name by precedence
explicit request → `REDRIP_PROFILE` environment value → `"default"`; when
the resolved name is absent from the mapping it falls back to `default`
(without an error: the function has no error output), and the returned
config is the mapping's entry for the name it settles on. -/
theorem getProfileConfig_precedence (env : String) (config : Config)
    (requested : String) :
    ((GetProfileConfig env config requested).2 =
      (if (mapLookup config.Profiles
            (if requested = "" then (if env = "" then "default" else env)
             else requested)).isSome = true
       then (if requested = "" then (if env = "" then "default" else env)
             else requested)
       else "default")) ∧
    (GetProfileConfig env config requested).1 =
      mapLookupD config.Profiles (GetProfileConfig env config requested).2 := by
  unfold GetProfileConfig
  by_cases hr : requested = ""
  · subst hr
    by_cases he : env = ""
    · subst he
      simp only [beq_self_eq_true, if_true, if_pos rfl]
      cases hl : mapLookup config.Profiles "default" with
      | none => simp [hl, mapLookupD]
      | some pc => simp [hl, mapLookupD]
    · have hbe : (env == "") = false := by simp [he]
      simp only [beq_self_eq_true, if_true, hbe, Bool.false_eq_true, if_false,
        if_pos rfl, he]
      cases hl : mapLookup config.Profiles env with
      | none => simp [hl, mapLookupD, he]
      | some pc => simp [hl, mapLookupD, he]
  · have hbr : (requested == "") = false := by simp [hr]
    simp only [hbr, Bool.false_eq_true, if_false, hr]
    cases hl : mapLookup config.Profiles requested with
    | none => simp [hl, mapLookupD, hr]
    | some pc => simp [hl, mapLookupD, hr]

/-! ## C8: validation of required fields -/

/-- C8: `ValidateProfileConfig` fails exactly when `redash_url` or
`api_key` is empty, and the message names exactly the empty fields with
`redash_url` listed before `api_key`; the `SQLDir` field never matters. -/
theorem validateProfileConfig_characterization (pc : ProfileConfig) :
    ValidateProfileConfig pc =
      (if pc.RedashURL = "" then
        (if pc.APIKey = "" then
          some "required configuration values not found: redash_url, api_key"
         else some "required configuration values not found: redash_url")
       else if pc.APIKey = "" then
        some "required configuration values not found: api_key"
       else none) := by
  unfold ValidateProfileConfig
  by_cases h1 : pc.RedashURL = "" <;> by_cases h2 : pc.APIKey = "" <;>
    simp [h1, h2] <;> rfl

/-! ## C9: SQL directory fallback -/

/-- C9: the directory resolution returns `"."` exactly when the configured
directory is empty or does not exist as a directory in the filesystem,
returns the configured path unchanged otherwise, and never produces an
error. -/
theorem getProfileSQLDir_fallback (fs : FS) (pc : ProfileConfig) :
    (GetProfileSQLDir fs pc).2 = none ∧
    (GetProfileSQLDir fs pc).1 =
      (if pc.SQLDir = "" ∨ isDirectory fs pc.SQLDir = false then "."
       else pc.SQLDir) := by
  have hdir : isDirectory fs pc.SQLDir = true → fileExists fs pc.SQLDir = true := by
    unfold isDirectory fileExists
    cases fs.stat pc.SQLDir with
    | none => simp
    | some node => cases node <;> simp
  unfold GetProfileSQLDir
  by_cases h1 : pc.SQLDir = ""
  · simp [h1]
  · by_cases h2 : isDirectory fs pc.SQLDir
    · simp [h1, h2, hdir h2]
    · have h2f : isDirectory fs pc.SQLDir = false := by
        simpa using h2
      simp [h1, h2f]

/-! ## Lemmas about a single comparison's outcome -/

theorem compare_cases (fs : FS) (id : Int) (q : Option Query) (p : String) :
    ((CompareQueryWithLocal fs id q p).2 = none ∧ readableFileAt fs p = true ∧
      ((CompareQueryWithLocal fs id q p).1.Status = "MATCH" ∨
       (CompareQueryWithLocal fs id q p).1.Status = "DIFFERENT" ∨
       (CompareQueryWithLocal fs id q p).1.Status = "MISSING_IN_REDASH")) ∨
    ((∃ msg, (CompareQueryWithLocal fs id q p).2 = some msg) ∧
      readableFileAt fs p = false ∧
      (CompareQueryWithLocal fs id q p).1.Status = "") := by
  unfold CompareQueryWithLocal fileExists isFile readFile readableFileAt
  cases hstat : fs.stat p with
  | none => cases q <;> simp
  | some node =>
    cases node with
    | dir => cases q <;> simp
    | file c r =>
      cases r with
      | false => cases q <;> simp
      | true =>
        cases q with
        | none => simp
        | some qq =>
          by_cases h : goTrim c == goTrim qq.Query <;> simp [h]

theorem compare_id_path (fs : FS) (id : Int) (q : Option Query) (p : String) :
    (CompareQueryWithLocal fs id q p).1.QueryID = id ∧
    (CompareQueryWithLocal fs id q p).1.LocalPath = p := by
  unfold CompareQueryWithLocal
  cases hstat : fs.stat p with
  | none => cases q <;> simp [fileExists, isFile, readFile, hstat]
  | some node =>
    cases node with
    | dir => cases q <;> simp [fileExists, isFile, readFile, hstat]
    | file c r =>
      cases r with
      | false => cases q <;> simp [fileExists, isFile, readFile, hstat]
      | true =>
        cases q with
        | none => simp [fileExists, isFile, readFile, hstat]
        | some qq =>
          by_cases h : goTrim c == goTrim qq.Query <;>
            simp [fileExists, isFile, readFile, hstat, h]

/-! ## Lemmas about one loop iteration of diff all -/

theorem diffAllStep_invalid (fs : FS) (qm : List (Int × Query)) (dir : String)
    (s : Summary) (e : DirEntry) (h : validSqlEntry e = false) :
    diffAllStep fs qm dir s e = s := by
  unfold validSqlEntry at h
  unfold diffAllStep
  cases hd : e.isDir with
  | true => simp [hd]
  | false =>
    cases hs : strEndsWith e.name ".sql" with
    | false => simp [hd, hs]
    | true =>
      have ha : atoi (trimSuffixStr e.name ".sql") = none := by
        rw [hd, hs] at h
        simpa using h
      simp [hd, hs, ha]

theorem diffAllStep_valid (fs : FS) (qm : List (Int × Query)) (dir : String)
    (s : Summary) (e : DirEntry) (h : validSqlEntry e = true) :
    diffAllStep fs qm dir s e =
      ⟨s.Profile, s.SQLDirectory,
        s.Matches + (if (entryResult fs qm dir e).Status == "MATCH" then 1 else 0),
        s.Differences + (if (entryResult fs qm dir e).Status == "DIFFERENT" then 1 else 0),
        s.MissingInRedash +
          (if (entryResult fs qm dir e).Status == "MISSING_IN_REDASH" then 1 else 0),
        s.Results ++ [entryResult fs qm dir e]⟩ := by
  unfold validSqlEntry at h
  have hd : e.isDir = false := by
    cases hd : e.isDir <;> simp [hd] at h ⊢
  have hs : strEndsWith e.name ".sql" = true := by
    cases hs : strEndsWith e.name ".sql" <;> simp [hd, hs] at h ⊢
  rw [hd, hs] at h
  simp only [Bool.not_false, Bool.true_and] at h
  obtain ⟨n, hn⟩ := Option.isSome_iff_exists.mp h
  unfold diffAllStep entryResult
  simp only [hd, hs, hn, Bool.not_true, Bool.or_self, Bool.false_eq_true,
    if_false, Option.getD_some]
  set rr : Result := (match (CompareQueryWithLocal fs n
      (qmapLookup qm n) (joinPath dir e.name)).2 with
    | some msg => { (CompareQueryWithLocal fs n
        (qmapLookup qm n) (joinPath dir e.name)).1 with
        Status := "ERROR", ErrorMessage := msg }
    | none => (CompareQueryWithLocal fs n
        (qmapLookup qm n) (joinPath dir e.name)).1) with hrr
  by_cases h1 : rr.Status == "MATCH"
  · have heq : rr.Status = "MATCH" := by simpa using h1
    have h2 : (rr.Status == "DIFFERENT") = false := by
      rw [heq]
      decide
    have h3 : (rr.Status == "MISSING_IN_REDASH") = false := by
      rw [heq]
      decide
    simp [h1, h2, h3]
  · by_cases h2 : rr.Status == "DIFFERENT"
    · have heq : rr.Status = "DIFFERENT" := by simpa using h2
      have h3 : (rr.Status == "MISSING_IN_REDASH") = false := by
        rw [heq]
        decide
      simp [h1, h2, h3]
    · by_cases h3 : rr.Status == "MISSING_IN_REDASH"
      · simp [h1, h2, h3]
      · simp [h1, h2, h3]

theorem entryResult_properties (fs : FS) (qm : List (Int × Query)) (dir : String)
    (e : DirEntry) :
    ((entryResult fs qm dir e).Status = "MATCH" ∨
     (entryResult fs qm dir e).Status = "DIFFERENT" ∨
     (entryResult fs qm dir e).Status = "MISSING_IN_REDASH" ∨
     (entryResult fs qm dir e).Status = "ERROR") ∧
    ((entryResult fs qm dir e).Status = "ERROR" ↔
      readableFileAt fs (joinPath dir e.name) = false) ∧
    (entryResult fs qm dir e).QueryID =
      (atoi (trimSuffixStr e.name ".sql")).getD 0 ∧
    (entryResult fs qm dir e).LocalPath = joinPath dir e.name ∧
    (∀ msg, (CompareQueryWithLocal fs ((atoi (trimSuffixStr e.name ".sql")).getD 0)
        (qmapLookup qm ((atoi (trimSuffixStr e.name ".sql")).getD 0))
        (joinPath dir e.name)).2 = some msg →
      (entryResult fs qm dir e).ErrorMessage = msg) := by
  have hip := compare_id_path fs ((atoi (trimSuffixStr e.name ".sql")).getD 0)
    (qmapLookup qm ((atoi (trimSuffixStr e.name ".sql")).getD 0))
    (joinPath dir e.name)
  unfold entryResult
  dsimp only
  rcases compare_cases fs ((atoi (trimSuffixStr e.name ".sql")).getD 0)
      (qmapLookup qm ((atoi (trimSuffixStr e.name ".sql")).getD 0))
      (joinPath dir e.name) with ⟨he, hrd, hst⟩ | ⟨⟨msg, he⟩, hrd, hst⟩
  · rw [he]
    refine ⟨by tauto, ?_, hip.1, hip.2, ?_⟩
    · rw [hrd]
      constructor
      · intro hE
        rcases hst with hS | hS | hS <;> rw [hS] at hE <;> exact absurd hE (by decide)
      · intro hfalse
        exact absurd hfalse (by decide)
    · intro msg hmsg
      exact absurd hmsg (by simp)
  · rw [he]
    refine ⟨by tauto, ?_, hip.1, hip.2, ?_⟩
    · rw [hrd]
      simp
    · intro msg' hmsg
      have hmm : msg = msg' := by
        injection hmsg
      subst hmm
      rfl

/-! ## The counter invariant of the bulk diff -/

/-- Each counter equals the number of results with the matching status, and
the three counters plus the `ERROR` results account for every result. -/
def countersOk (s : Summary) : Prop :=
  s.Matches = countStatus s.Results "MATCH" ∧
  s.Differences = countStatus s.Results "DIFFERENT" ∧
  s.MissingInRedash = countStatus s.Results "MISSING_IN_REDASH" ∧
  s.Matches + s.Differences + s.MissingInRedash +
    countStatus s.Results "ERROR" = s.Results.length

theorem countersOk_step (fs : FS) (qm : List (Int × Query)) (dir : String)
    (s : Summary) (e : DirEntry) (h : countersOk s) :
    countersOk (diffAllStep fs qm dir s e) := by
  by_cases hv : validSqlEntry e = true
  · rw [diffAllStep_valid fs qm dir s e hv]
    obtain ⟨h1, h2, h3, h4⟩ := h
    have hst := (entryResult_properties fs qm dir e).1
    set r := entryResult fs qm dir e with hr
    unfold countersOk countStatus at *
    simp only [List.countP_append, List.countP_cons, List.countP_nil,
      List.length_append, List.length_cons, List.length_nil]
    rcases hst with hS | hS | hS | hS
    · have bM : (r.Status == "MATCH") = true := by
        rw [hS]
        decide
      have bD : (r.Status == "DIFFERENT") = false := by
        rw [hS]
        decide
      have bMIR : (r.Status == "MISSING_IN_REDASH") = false := by
        rw [hS]
        decide
      have bE : (r.Status == "ERROR") = false := by
        rw [hS]
        decide
      refine ⟨?_, ?_, ?_, ?_⟩ <;> simp [bM, bD, bMIR, bE, h1, h2, h3] <;> omega
    · have bM : (r.Status == "MATCH") = false := by
        rw [hS]
        decide
      have bD : (r.Status == "DIFFERENT") = true := by
        rw [hS]
        decide
      have bMIR : (r.Status == "MISSING_IN_REDASH") = false := by
        rw [hS]
        decide
      have bE : (r.Status == "ERROR") = false := by
        rw [hS]
        decide
      refine ⟨?_, ?_, ?_, ?_⟩ <;> simp [bM, bD, bMIR, bE, h1, h2, h3] <;> omega
    · have bM : (r.Status == "MATCH") = false := by
        rw [hS]
        decide
      have bD : (r.Status == "DIFFERENT") = false := by
        rw [hS]
        decide
      have bMIR : (r.Status == "MISSING_IN_REDASH") = true := by
        rw [hS]
        decide
      have bE : (r.Status == "ERROR") = false := by
        rw [hS]
        decide
      refine ⟨?_, ?_, ?_, ?_⟩ <;> simp [bM, bD, bMIR, bE, h1, h2, h3] <;> omega
    · have bM : (r.Status == "MATCH") = false := by
        rw [hS]
        decide
      have bD : (r.Status == "DIFFERENT") = false := by
        rw [hS]
        decide
      have bMIR : (r.Status == "MISSING_IN_REDASH") = false := by
        rw [hS]
        decide
      have bE : (r.Status == "ERROR") = true := by
        rw [hS]
        decide
      refine ⟨?_, ?_, ?_, ?_⟩ <;> simp [bM, bD, bMIR, bE, h1, h2, h3] <;> omega
  · rw [diffAllStep_invalid fs qm dir s e (by simpa using hv)]
    exact h

theorem countersOk_foldl (fs : FS) (qm : List (Int × Query)) (dir : String) :
    ∀ (entries : List DirEntry) (s : Summary), countersOk s →
      countersOk (List.foldl (diffAllStep fs qm dir) s entries)
  | [], s, h => by simpa using h
  | e :: rest, s, h =>
    countersOk_foldl fs qm dir rest (diffAllStep fs qm dir s e)
      (countersOk_step fs qm dir s e h)

theorem diffAllStep_results_le (fs : FS) (qm : List (Int × Query)) (dir : String)
    (s : Summary) (e : DirEntry) :
    (diffAllStep fs qm dir s e).Results.length ≤ s.Results.length + 1 := by
  by_cases hv : validSqlEntry e = true
  · rw [diffAllStep_valid fs qm dir s e hv]
    simp
  · rw [diffAllStep_invalid fs qm dir s e (by simpa using hv)]
    omega

theorem foldl_results_le (fs : FS) (qm : List (Int × Query)) (dir : String) :
    ∀ (entries : List DirEntry) (s : Summary),
      (List.foldl (diffAllStep fs qm dir) s entries).Results.length ≤
        s.Results.length + entries.length
  | [], s => by simp
  | e :: rest, s => by
    have h1 := foldl_results_le fs qm dir rest (diffAllStep fs qm dir s e)
    have h2 := diffAllStep_results_le fs qm dir s e
    simp only [List.foldl_cons, List.length_cons]
    omega

/-! ## C3, C4, C10: the bulk diff -/

/-- C3: over any processed entry sequence each counter equals the number of
results carrying its status (so each result increments exactly the counter
of its status, `ERROR` results increment none and nothing is
double-counted), the three counters plus the `ERROR` results account for
every produced result, and no more results are produced than entries were
processed. -/
theorem diffAll_counters_partition (fs : FS) (qm : List (Int × Query))
    (profile sqlDir : String) (entries : List DirEntry) :
    (diffAll fs qm profile sqlDir entries).Matches =
      countStatus (diffAll fs qm profile sqlDir entries).Results "MATCH" ∧
    (diffAll fs qm profile sqlDir entries).Differences =
      countStatus (diffAll fs qm profile sqlDir entries).Results "DIFFERENT" ∧
    (diffAll fs qm profile sqlDir entries).MissingInRedash =
      countStatus (diffAll fs qm profile sqlDir entries).Results "MISSING_IN_REDASH" ∧
    (diffAll fs qm profile sqlDir entries).Matches +
      (diffAll fs qm profile sqlDir entries).Differences +
      (diffAll fs qm profile sqlDir entries).MissingInRedash +
      countStatus (diffAll fs qm profile sqlDir entries).Results "ERROR" =
      (diffAll fs qm profile sqlDir entries).Results.length ∧
    (diffAll fs qm profile sqlDir entries).Results.length ≤ entries.length := by
  have h0 : countersOk { Profile := profile, SQLDirectory := sqlDir, Results := [] } := by
    unfold countersOk countStatus
    simp
  have h := countersOk_foldl fs qm sqlDir entries _ h0
  have hlen := foldl_results_le fs qm sqlDir entries
    { Profile := profile, SQLDirectory := sqlDir, Results := [] }
  unfold countersOk at h
  unfold diffAll
  exact ⟨h.1, h.2.1, h.2.2.1, h.2.2.2, by simpa using hlen⟩

/-- C4: one loop iteration of the bulk diff appends exactly one result when
the entry is a non-directory whose name is `<integer>.sql`, and otherwise
leaves the whole summary (results and counters) unchanged. -/
theorem diffAll_entry_filter (fs : FS) (qm : List (Int × Query))
    (sqlDir : String) (s : Summary) (e : DirEntry) :
    if validSqlEntry e = true then
      (diffAllStep fs qm sqlDir s e).Results =
        s.Results ++ [entryResult fs qm sqlDir e]
    else diffAllStep fs qm sqlDir s e = s := by
  by_cases hv : validSqlEntry e = true
  · rw [if_pos hv, diffAllStep_valid fs qm sqlDir s e hv]
  · rw [if_neg hv, diffAllStep_invalid fs qm sqlDir s e (by simpa using hv)]

/-- C10: for a valid entry the appended result's status is always one of
`MATCH`, `DIFFERENT`, `MISSING_IN_REDASH` or `ERROR` (never empty); it is
`ERROR` exactly when the comparison failed (the local file is missing, not
a regular file, or unreadable); the result always carries the parsed query
id and the local path, on failure its error message is the comparison's
error text, and the loop goes on to process the remaining entries. -/
theorem diffAll_error_capture (fs : FS) (qm : List (Int × Query))
    (sqlDir : String) (s : Summary) (e : DirEntry) (rest : List DirEntry)
    (h : validSqlEntry e = true) :
    ∃ r : Result,
      (diffAllStep fs qm sqlDir s e).Results = s.Results ++ [r] ∧
      (r.Status = "MATCH" ∨ r.Status = "DIFFERENT" ∨
        r.Status = "MISSING_IN_REDASH" ∨ r.Status = "ERROR") ∧
      (r.Status = "ERROR" ↔ readableFileAt fs (joinPath sqlDir e.name) = false) ∧
      r.QueryID = (atoi (trimSuffixStr e.name ".sql")).getD 0 ∧
      r.LocalPath = joinPath sqlDir e.name ∧
      (∀ msg, (CompareQueryWithLocal fs ((atoi (trimSuffixStr e.name ".sql")).getD 0)
          (qmapLookup qm ((atoi (trimSuffixStr e.name ".sql")).getD 0))
          (joinPath sqlDir e.name)).2 = some msg → r.ErrorMessage = msg) ∧
      List.foldl (diffAllStep fs qm sqlDir) s (e :: rest) =
        List.foldl (diffAllStep fs qm sqlDir) (diffAllStep fs qm sqlDir s e) rest := by
  obtain ⟨hst, hiff, hid, hpath, hmsg⟩ := entryResult_properties fs qm sqlDir e
  refine ⟨entryResult fs qm sqlDir e, ?_, hst, hiff, hid, hpath, hmsg, rfl⟩
  rw [diffAllStep_valid fs qm sqlDir s e h]

/-- Witness for C10 at a concrete input: the directory listing entry
`3.sql` over an empty filesystem (so the comparison fails and the result is
an `ERROR` carrying id 3). -/
theorem diffAll_error_capture_witness :
    ∃ r : Result,
      (diffAllStep ⟨[]⟩ [] "d" ⟨"", "", 0, 0, 0, []⟩ ⟨"3.sql", false⟩).Results =
        [] ++ [r] ∧
      (r.Status = "MATCH" ∨ r.Status = "DIFFERENT" ∨
        r.Status = "MISSING_IN_REDASH" ∨ r.Status = "ERROR") ∧
      (r.Status = "ERROR" ↔ readableFileAt ⟨[]⟩ (joinPath "d" "3.sql") = false) ∧
      r.QueryID = (atoi (trimSuffixStr "3.sql" ".sql")).getD 0 ∧
      r.LocalPath = joinPath "d" "3.sql" ∧
      (∀ msg, (CompareQueryWithLocal ⟨[]⟩ ((atoi (trimSuffixStr "3.sql" ".sql")).getD 0)
          (qmapLookup [] ((atoi (trimSuffixStr "3.sql" ".sql")).getD 0))
          (joinPath "d" "3.sql")).2 = some msg → r.ErrorMessage = msg) ∧
      List.foldl (diffAllStep ⟨[]⟩ [] "d") ⟨"", "", 0, 0, 0, []⟩ [⟨"3.sql", false⟩] =
        List.foldl (diffAllStep ⟨[]⟩ [] "d")
          (diffAllStep ⟨[]⟩ [] "d" ⟨"", "", 0, 0, 0, []⟩ ⟨"3.sql", false⟩) [] :=
  diffAll_error_capture ⟨[]⟩ [] "d" ⟨"", "", 0, 0, 0, []⟩ ⟨"3.sql", false⟩ []
    (by decide)

end Redrip
